import Mathlib

/-!
Verification development for the SMS dashboard server (`src/server.js`).

The repository holds two variants of the same Express server, concatenated in
`src/server.js`.  Both keep two in-memory JSON objects — `customers`
(phone number → display name) and `conversations` (phone number → array of
message records) — persist them to disk after each mutation, and broadcast
live-update events over socket.io.  JavaScript objects are embedded as
association lists with unique keys (property order preserved, update in place,
new keys appended), matching `customers[k] = v`, `delete customers[k]` and
`Object.keys`.  Fallible external calls (the Twilio send / list primitives,
the disk write inside the webhook) are passed in as explicit `Except` / `Bool`
parameters; handler side effects (file writes, socket emits, provider sends)
are recorded in an ordered action trace.  The JS field `from` is spelled
`from_` and `to` is spelled `to_` because both words are reserved in Lean.
-/

namespace Sms

/-- A message record as stored in a conversation
(`{ id, from, to, body, direction, timestamp, status }` in `server.js`;
the JS `Date` timestamps are embedded as naturals, compared numerically
exactly as the `new Date(a) - new Date(b)` sort comparator does). -/
structure Message where
  id : String
  from_ : String
  to_ : String
  body : String
  direction : String
  timestamp : Nat
  status : String
  deriving DecidableEq, Repr

/-- The conversation index: the JS object `conversations`
(phone number → ordered array of messages). -/
abbrev ConversationIndex := List (String × List Message)

/-- The contact map: the JS object `customers` (phone number → display name). -/
abbrev CustomerMap := List (String × String)

/-- The mutable server state held in the globals `customers` and
`conversations` of `server.js`. -/
structure ServerState where
  customers : CustomerMap
  conversations : ConversationIndex
  deriving DecidableEq, Repr

/-- Property lookup `o[k]` on a JS object embedded as an association list. -/
def getKey {α : Type} : List (String × α) → String → Option α
  | [], _ => none
  | p :: ps, k => if p.1 = k then some p.2 else getKey ps k

/-- Property assignment `o[k] = v`: updates the first entry with key `k`
in place, or appends a new entry at the end (JS property-order semantics). -/
def setKey {α : Type} : List (String × α) → String → α → List (String × α)
  | [], k, v => [(k, v)]
  | p :: ps, k, v => if p.1 = k then (k, v) :: ps else p :: setKey ps k v

/-- Property deletion `delete o[k]` (keys are unique, so removing every
entry with key `k` coincides with removing the one property). -/
def delKey {α : Type} : List (String × α) → String → List (String × α)
  | [], _ => []
  | p :: ps, k => if p.1 = k then delKey ps k else p :: delKey ps k

/-- `Object.keys(o)` for the embedded object. -/
def keysOf {α : Type} (o : List (String × α)) : List String :=
  o.map Prod.fst

/-- Well-formedness of an embedded JS object: keys are unique. -/
def keysNodup {α : Type} (o : List (String × α)) : Prop :=
  (keysOf o).Nodup

instance {α : Type} (o : List (String × α)) : Decidable (keysNodup o) :=
  List.nodupDecidable (keysOf o)

/-- First-some choice on options, mirroring how a key of the source object
shadows the target's entry after `Object.assign(target, source)`. -/
def orKey {α : Type} (a b : Option α) : Option α :=
  match a with
  | some v => some v
  | none => b

/-- `Object.assign(target, source)`: assigns every entry of `source` into
`target`, in order. -/
def objAssign {α : Type} (target source : List (String × α)) : List (String × α) :=
  source.foldl (fun acc p => setKey acc p.1 p.2) target

theorem getKey_cons {α : Type} (p : String × α) (ps : List (String × α)) (k : String) :
    getKey (p :: ps) k = if p.1 = k then some p.2 else getKey ps k := rfl

theorem getKey_setKey {α : Type} (o : List (String × α)) (k k' : String) (v : α) :
    getKey (setKey o k v) k' = if k' = k then some v else getKey o k' := by
  induction o with
  | nil =>
    by_cases h : k' = k
    · simp [setKey, getKey, h]
    · have h' : ¬ k = k' := fun h2 => h h2.symm
      simp [setKey, getKey, h, h']
  | cons p ps ih =>
    by_cases hp : p.1 = k
    · by_cases h : k' = k
      · simp [setKey, hp, getKey_cons, h]
      · have hp' : ¬ p.1 = k' := fun h2 => h (h2.symm.trans hp)
        have hk : ¬ k = k' := fun h2 => h h2.symm
        simp [setKey, hp, getKey_cons, h, hp', hk]
    · by_cases hk : p.1 = k'
      · have : ¬ k' = k := fun h => hp (hk.trans h)
        simp [setKey, hp, getKey_cons, hk, this]
      · simp [setKey, hp, getKey_cons, hk, ih]

theorem getKey_delKey {α : Type} (o : List (String × α)) (k k' : String) :
    getKey (delKey o k) k' = if k' = k then none else getKey o k' := by
  induction o with
  | nil => simp [delKey, getKey]
  | cons p ps ih =>
    by_cases hp : p.1 = k
    · by_cases h : k' = k
      · subst h
        simp [delKey, hp, ih]
      · have hp' : ¬ p.1 = k' := fun h2 => h (h2.symm.trans hp)
        have hk : ¬ k = k' := fun h2 => h h2.symm
        simp [delKey, hp, ih, h, getKey_cons, hp', hk]
    · by_cases hk : p.1 = k'
      · have : ¬ k' = k := fun h => hp (hk.trans h)
        simp [delKey, hp, getKey_cons, hk, this]
      · simp [delKey, hp, getKey_cons, hk, ih]

theorem keysOf_delKey_not_mem {α : Type} (o : List (String × α)) (k : String) :
    k ∉ keysOf (delKey o k) := by
  induction o with
  | nil => simp [delKey, keysOf]
  | cons p ps ih =>
    by_cases hp : p.1 = k
    · simpa [delKey, hp] using ih
    · simp only [delKey, if_neg hp, keysOf, List.map_cons, List.mem_cons, not_or]
      exact ⟨fun h => hp h.symm, ih⟩

theorem getKey_eq_none_of_not_mem {α : Type} {o : List (String × α)} {k : String}
    (h : k ∉ keysOf o) : getKey o k = none := by
  induction o with
  | nil => rfl
  | cons p ps ih =>
    simp only [keysOf, List.map_cons, List.mem_cons, not_or] at h
    have : ¬ p.1 = k := fun h2 => h.1 h2.symm
    simp only [getKey_cons, if_neg this]
    exact ih h.2

theorem getKey_of_mem_nodup {α : Type} {o : List (String × α)}
    (h : keysNodup o) {p : String × α} (hp : p ∈ o) : getKey o p.1 = some p.2 := by
  induction o with
  | nil => cases hp
  | cons q qs ih =>
    simp only [keysNodup, keysOf, List.map_cons, List.nodup_cons] at h
    rcases List.mem_cons.mp hp with h1 | h1
    · subst h1; simp [getKey_cons]
    · have hq : ¬ q.1 = p.1 := by
        intro h2
        exact h.1 (h2 ▸ (List.mem_map.mpr ⟨p, h1, rfl⟩))
      simp only [getKey_cons, if_neg hq]
      exact ih h.2 h1

theorem keysOf_setKey {α : Type} (o : List (String × α)) (k : String) (v : α) :
    keysOf (setKey o k v) = if k ∈ keysOf o then keysOf o else keysOf o ++ [k] := by
  induction o with
  | nil => simp [setKey, keysOf]
  | cons p ps ih =>
    by_cases hp : p.1 = k
    · simp [setKey, hp, keysOf]
    · have : ¬ k = p.1 := fun h => hp h.symm
      simp only [setKey, if_neg hp, keysOf, List.map_cons, List.mem_cons, this, false_or]
      simp only [keysOf] at ih
      by_cases hm : k ∈ ps.map Prod.fst <;> simp [hm, ih]

theorem keysNodup_setKey {α : Type} {o : List (String × α)} (h : keysNodup o)
    (k : String) (v : α) : keysNodup (setKey o k v) := by
  unfold keysNodup
  rw [keysOf_setKey]
  by_cases hm : k ∈ keysOf o
  · simpa [hm] using h
  · simp only [hm, if_false]
    rw [List.nodup_append]
    exact ⟨h, List.nodup_singleton k, by simpa using hm⟩

theorem setKey_eq_of_getKey {α : Type} {o : List (String × α)} {k : String} {v : α}
    (h : getKey o k = some v) : setKey o k v = o := by
  induction o with
  | nil => simp [getKey] at h
  | cons p ps ih =>
    by_cases hp : p.1 = k
    · simp only [getKey_cons, if_pos hp] at h
      obtain rfl := Option.some_injective _ h
      simp only [setKey, if_pos hp]
      rw [← hp]
    · simp only [getKey_cons, if_neg hp] at h
      simp [setKey, hp, ih h]

theorem objAssign_cons {α : Type} (t : List (String × α)) (p : String × α)
    (s : List (String × α)) :
    objAssign t (p :: s) = objAssign (setKey t p.1 p.2) s := rfl

theorem objAssign_self_of_sub {α : Type} (m : List (String × α)) :
    ∀ s : List (String × α), (∀ p ∈ s, getKey m p.1 = some p.2) → objAssign m s = m := by
  intro s
  induction s with
  | nil => intro _; rfl
  | cons p ps ih =>
    intro h
    rw [objAssign_cons, setKey_eq_of_getKey (h p (List.mem_cons_self p ps))]
    exact ih fun q hq => h q (List.mem_cons_of_mem p hq)

theorem objAssign_self {α : Type} {m : List (String × α)} (h : keysNodup m) :
    objAssign m m = m :=
  objAssign_self_of_sub m m fun _ hp => getKey_of_mem_nodup h hp

theorem getKey_objAssign {α : Type} (t s : List (String × α)) (k : String)
    (hs : keysNodup s) :
    getKey (objAssign t s) k = orKey (getKey s k) (getKey t k) := by
  induction s generalizing t with
  | nil => simp [objAssign, getKey, orKey]
  | cons p ps ih =>
    have hs' : keysNodup ps := by
      simpa [keysNodup, keysOf] using (List.nodup_cons.mp hs).2
    have hmem : p.1 ∉ keysOf ps := by
      simpa [keysNodup, keysOf] using (List.nodup_cons.mp hs).1
    rw [objAssign_cons, ih (setKey t p.1 p.2) hs']
    by_cases h : k = p.1
    · have hnone : getKey ps p.1 = none := getKey_eq_none_of_not_mem hmem
      simp [getKey_cons, h, hnone, orKey, getKey_setKey]
    · have h' : ¬ p.1 = k := fun h2 => h h2.symm
      simp [getKey_cons, h', orKey, getKey_setKey, h]

theorem keysNodup_objAssign {α : Type} {t : List (String × α)} (h : keysNodup t)
    (s : List (String × α)) : keysNodup (objAssign t s) := by
  induction s generalizing t with
  | nil => exact h
  | cons p ps ih =>
    rw [objAssign_cons]
    exact ih (keysNodup_setKey h p.1 p.2)

/-! ## Live-update events and handler side effects -/

/-- The two socket.io event kinds broadcast by the server:
`io.emit('new-message', { phoneNumber, message })` and
`io.emit('conversation-deleted', { phoneNumber })`. -/
inductive Event where
  | newMessage (phoneNumber : String) (message : Message)
  | conversationDeleted (phoneNumber : String)
  deriving DecidableEq, Repr

/-- A side effect performed by a handler, in execution order:
a successful disk write of `customers.json` or `conversations.json`,
a socket.io broadcast, or a successful `twilioClient.messages.create`
call (recipient and body). -/
inductive Action where
  | writeCustomers
  | writeConversations
  | emitEvent (e : Event)
  | twilioSend (recipient : String) (body : String)
  deriving DecidableEq, Repr

/-- Tests whether an action is a socket.io broadcast. -/
def isEmitAction : Action → Bool
  | Action.emitEvent _ => true
  | _ => false

/-- Tests whether an action is the `conversations.json` disk write. -/
def isWriteConvsAction : Action → Bool
  | Action.writeConversations => true
  | _ => false

/-- Tests whether an action is a provider send. -/
def isTwilioSendAction : Action → Bool
  | Action.twilioSend _ _ => true
  | _ => false

/-- JS truthiness of an optional string (`undefined` and `""` are falsy),
as used by `if (customerName)`, `if (ownerPhone)` and `customers[From] || From`. -/
def truthyStr : Option String → Option String
  | none => none
  | some s => if s = "" then none else some s

/-! ## Provider primitives -/

/-- The resolved value of `twilioClient.messages.create(...)`
(the fields the handler reads from it). -/
structure TwilioMessage where
  sid : String
  from_ : String
  to_ : String
  body : String
  status : String
  deriving DecidableEq, Repr

/-- One record of `twilioClient.messages.list({ limit: 1000 })`
(the fields the resync code reads from it). -/
structure TwilioRecord where
  sid : String
  from_ : String
  to_ : String
  body : String
  direction : String
  dateCreated : Nat
  status : String
  deriving DecidableEq, Repr

/-! ## Send-message handler (`POST /send-message`, identical in both variants) -/

/-- The request body `{ to, message, customerName }` of `POST /send-message`. -/
structure SendReq where
  to_ : String
  message : String
  customerName : Option String
  deriving DecidableEq, Repr

/-- The response of `POST /send-message`: `{ success: true, message }`
or `res.status(500).json({ error })`. -/
inductive SendResponse where
  | success (message : Message)
  | err (status : Nat) (error : String)
  deriving DecidableEq, Repr

/-- The outbound `messageData` object synthesized by the send handler
from the resolved Twilio message (`timestamp: new Date()` becomes `now`). -/
def sentMessageData (tm : TwilioMessage) (now : Nat) : Message :=
  { id := tm.sid, from_ := tm.from_, to_ := tm.to_, body := tm.body,
    direction := "outbound", timestamp := now, status := tm.status }

/-- The `POST /send-message` handler.  `twilioResult` is the outcome of the
`twilioClient.messages.create` call; when it rejects, control jumps to the
`catch` block before any state was touched. -/
def sendMessage (st : ServerState) (req : SendReq)
    (twilioResult : Except String TwilioMessage) (now : Nat) :
    ServerState × List Action × SendResponse :=
  match twilioResult with
  | Except.error e => (st, [], SendResponse.err 500 e)
  | Except.ok tm =>
    let customersAfter :=
      match truthyStr req.customerName with
      | some name => setKey st.customers req.to_ name
      | none => st.customers
    let customerActions :=
      match truthyStr req.customerName with
      | some _ => [Action.writeCustomers]
      | none => []
    let messageData := sentMessageData tm now
    let conversationsAfter :=
      setKey st.conversations req.to_
        (((getKey st.conversations req.to_).getD []) ++ [messageData])
    (⟨customersAfter, conversationsAfter⟩,
     customerActions ++
       [Action.writeConversations,
        Action.emitEvent (Event.newMessage req.to_ messageData)],
     SendResponse.success messageData)

/-! ## Delete-conversation handler (`DELETE /conversations/:phoneNumber`) -/

/-- The response of the delete handler: `{ success: true }` or
`res.status(404).json({ error: 'Conversation not found' })`. -/
inductive DeleteResponse where
  | success
  | notFound
  deriving DecidableEq, Repr

/-- The `DELETE /conversations/:phoneNumber` handler (identical in both
variants; an array value is always truthy, so `if (conversations[p])`
is a presence test). -/
def deleteConversation (st : ServerState) (phoneNumber : String) :
    ServerState × List Action × DeleteResponse :=
  match getKey st.conversations phoneNumber with
  | some _ =>
    (⟨st.customers, delKey st.conversations phoneNumber⟩,
     [Action.writeConversations,
      Action.emitEvent (Event.conversationDeleted phoneNumber)],
     DeleteResponse.success)
  | none => (st, [], DeleteResponse.notFound)

/-! ## Webhook handler (`POST /webhook`, two variants) -/

/-- The Twilio webhook request body `{ From, To, Body, MessageSid }`. -/
structure WebhookReq where
  From : String
  To : String
  Body : String
  MessageSid : String
  deriving DecidableEq, Repr

/-- An HTTP response: status code, content type and body. -/
structure HttpResponse where
  status : Nat
  contentType : String
  body : String
  deriving DecidableEq, Repr

/-- The TwiML acknowledgment document sent by webhook variant 1. -/
def twimlResponse : String :=
  "<?xml version=\"1.0\" encoding=\"UTF-8\"?><Response></Response>"

/-- The inbound `messageData` object synthesized by the webhook handler. -/
def webhookMessageData (req : WebhookReq) (now : Nat) : Message :=
  { id := req.MessageSid, from_ := req.From, to_ := req.To, body := req.Body,
    direction := "inbound", timestamp := now, status := "received" }

/-- The display name used in the forwarded text:
`customers[From] || From`. -/
def forwardDisplayName (customers : CustomerMap) (fromNumber : String) : String :=
  match truthyStr (getKey customers fromNumber) with
  | some name => name
  | none => fromNumber

/-- The templated body of the message forwarded to the owner. -/
def forwardBody (customers : CustomerMap) (req : WebhookReq) : String :=
  "SMS from " ++ forwardDisplayName customers req.From ++ ": " ++ req.Body

/-- The new conversation index after the webhook appends its inbound
message (`if (!conversations[From]) conversations[From] = []` followed
by `conversations[From].push(messageData)`). -/
def webhookConversations (st : ServerState) (req : WebhookReq) (now : Nat) :
    ConversationIndex :=
  setKey st.conversations req.From
    (((getKey st.conversations req.From).getD []) ++ [webhookMessageData req now])

/-- Webhook variant 1 (first copy of `server.js`): appends the inbound
message, awaits the `conversations.json` write, forwards to the owner when
one is configured, emits `new-message`, and replies with a TwiML document.
`persistOk` / `forwardOk` say whether the awaited disk write / owner
forward resolve; a rejection jumps to the `catch` block, which replies
with the same TwiML body under status 500.  The in-memory `push` has
already happened by then. -/
def webhookV1 (st : ServerState) (req : WebhookReq) (ownerPhone : Option String)
    (now : Nat) (persistOk : Bool) (forwardOk : Bool) :
    ServerState × List Action × HttpResponse :=
  let stAfter : ServerState := ⟨st.customers, webhookConversations st req now⟩
  if persistOk then
    match truthyStr ownerPhone with
    | some owner =>
      if forwardOk then
        (stAfter,
         [Action.writeConversations,
          Action.twilioSend owner (forwardBody st.customers req),
          Action.emitEvent (Event.newMessage req.From (webhookMessageData req now))],
         ⟨200, "text/xml", twimlResponse⟩)
      else
        (stAfter, [Action.writeConversations], ⟨500, "text/xml", twimlResponse⟩)
    | none =>
      (stAfter,
       [Action.writeConversations,
        Action.emitEvent (Event.newMessage req.From (webhookMessageData req now))],
       ⟨200, "text/xml", twimlResponse⟩)
  else
    (stAfter, [], ⟨500, "text/xml", twimlResponse⟩)

/-- Webhook variant 2 (second copy of `server.js`): same state mutation and
forwarding, but replies `res.status(200).send('OK')` on success and
`res.status(500).send('Error')` from the `catch` block. -/
def webhookV2 (st : ServerState) (req : WebhookReq) (ownerPhone : Option String)
    (now : Nat) (persistOk : Bool) (forwardOk : Bool) :
    ServerState × List Action × HttpResponse :=
  let stAfter : ServerState := ⟨st.customers, webhookConversations st req now⟩
  if persistOk then
    match truthyStr ownerPhone with
    | some owner =>
      if forwardOk then
        (stAfter,
         [Action.writeConversations,
          Action.twilioSend owner (forwardBody st.customers req),
          Action.emitEvent (Event.newMessage req.From (webhookMessageData req now))],
         ⟨200, "text/html", "OK"⟩)
      else
        (stAfter, [Action.writeConversations], ⟨500, "text/html", "Error"⟩)
    | none =>
      (stAfter,
       [Action.writeConversations,
        Action.emitEvent (Event.newMessage req.From (webhookMessageData req now))],
       ⟨200, "text/html", "OK"⟩)
  else
    (stAfter, [], ⟨500, "text/html", "Error"⟩)

/-! ## Export / import handlers -/

/-- `GET /export-customers` serves the `customers` object verbatim
(`res.json(customers)`). -/
def exportCustomers (st : ServerState) : CustomerMap :=
  st.customers

/-- The parsed JSON request body of `POST /import-customers`, restricted to
the shapes the validation distinguishes: an object, JSON `null`, and a
non-object primitive (string/number/boolean, i.e. `typeof !== 'object'`). -/
inductive ImportBody where
  | obj (entries : CustomerMap)
  | nullValue
  | nonObjectPrim (raw : String)
  deriving DecidableEq, Repr

/-- The response of `POST /import-customers`:
`{ success: true, imported, total }` or `res.status(400).json({ error })`. -/
inductive ImportResult where
  | success (imported : Nat) (total : Nat)
  | err (status : Nat) (error : String)
  deriving DecidableEq, Repr

/-- The `POST /import-customers` handler: validates the body, merges via
`Object.assign(customers, importedCustomers)`, persists, and reports
`imported = Object.keys(importedCustomers).length`,
`total = Object.keys(customers).length`. -/
def importCustomers (st : ServerState) (body : ImportBody) :
    ServerState × List Action × ImportResult :=
  match body with
  | ImportBody.obj importedCustomers =>
    let customersAfter := objAssign st.customers importedCustomers
    (⟨customersAfter, st.conversations⟩,
     [Action.writeCustomers],
     ImportResult.success (keysOf importedCustomers).length (keysOf customersAfter).length)
  | ImportBody.nullValue => (st, [], ImportResult.err 400 "Invalid file format")
  | ImportBody.nonObjectPrim _ => (st, [], ImportResult.err 400 "Invalid file format")

/-! ## Provider resync (`loadConversationsFromTwilio`, two variants) -/

/-- Timestamp order used by the `sort((a, b) => new Date(a.timestamp) - new Date(b.timestamp))`
comparator. -/
def tsLe (a b : Message) : Prop :=
  a.timestamp ≤ b.timestamp

instance : DecidableRel tsLe := fun a b => Nat.decLe a.timestamp b.timestamp

instance : IsTotal Message tsLe := ⟨fun a b => Nat.le_total a.timestamp b.timestamp⟩

instance : IsTrans Message tsLe := ⟨fun _ _ _ hab hbc => Nat.le_trans hab hbc⟩

/-- Variant 1 counterparty key: `isOutbound = (message.from === twilioFromNumber)`,
grouped under `to` when outbound, `from` when inbound. -/
def counterpartyV1 (twilioFromNumber : String) (m : TwilioRecord) : String :=
  if m.from_ = twilioFromNumber then m.to_ else m.from_

/-- Variant 1 stored record: direction recomputed from the origin comparison. -/
def entryV1 (twilioFromNumber : String) (m : TwilioRecord) : Message :=
  { id := m.sid, from_ := m.from_, to_ := m.to_, body := m.body,
    direction := if m.from_ = twilioFromNumber then "outbound" else "inbound",
    timestamp := m.dateCreated, status := m.status }

/-- Variant 2 counterparty key: grouped under `from` when the provider's
`direction` field is `'inbound'`, else under `to`. -/
def counterpartyV2 (m : TwilioRecord) : String :=
  if m.direction = "inbound" then m.from_ else m.to_

/-- Variant 2 stored record: the provider's `direction` field is kept verbatim. -/
def entryV2 (m : TwilioRecord) : Message :=
  { id := m.sid, from_ := m.from_, to_ := m.to_, body := m.body,
    direction := m.direction, timestamp := m.dateCreated, status := m.status }

/-- One step of the grouping loop `messages.forEach(...)`: push the stored
record onto the counterparty's (possibly fresh) array. -/
def groupStep (key : TwilioRecord → String) (ent : TwilioRecord → Message)
    (conv : ConversationIndex) (m : TwilioRecord) : ConversationIndex :=
  setKey conv (key m) (((getKey conv (key m)).getD []) ++ [ent m])

/-- The whole grouping loop, starting from the fresh `conversations = {}`. -/
def groupRecords (key : TwilioRecord → String) (ent : TwilioRecord → Message)
    (msgs : List TwilioRecord) : ConversationIndex :=
  msgs.foldl (groupStep key ent) []

/-- Per-conversation timestamp sort applied after grouping. -/
def sortConversations (conv : ConversationIndex) : ConversationIndex :=
  conv.map fun p => (p.1, List.insertionSort tsLe p.2)

/-- Variant 1 of `loadConversationsFromTwilio`.  `oldConversations` is the
index the global held before the call: the function discards it
(`conversations = {}` after a successful fetch) and never mixes it into the
result.  On fetch failure the catch block reads `conversations.json`
(`snapshot`, `none` when the file is missing/unreadable) and falls back to
`{}`. -/
def loadConversationsFromTwilioV1 (_oldConversations : ConversationIndex)
    (fetch : Except String (List TwilioRecord)) (twilioFromNumber : String)
    (snapshot : Option ConversationIndex) : ConversationIndex :=
  match fetch with
  | Except.ok messages =>
    sortConversations (groupRecords (counterpartyV1 twilioFromNumber)
      (entryV1 twilioFromNumber) messages)
  | Except.error _ => snapshot.getD []

/-- Variant 2 of `loadConversationsFromTwilio`: same shape, but grouping and
direction come from the provider's `direction` field and the configured
outbound number is never consulted. -/
def loadConversationsFromTwilioV2 (_oldConversations : ConversationIndex)
    (fetch : Except String (List TwilioRecord))
    (snapshot : Option ConversationIndex) : ConversationIndex :=
  match fetch with
  | Except.ok messages =>
    sortConversations (groupRecords counterpartyV2 entryV2 messages)
  | Except.error _ => snapshot.getD []

/-! ## Handler-shape lemmas -/

theorem sendMessage_ok_conversations (st : ServerState) (req : SendReq)
    (tm : TwilioMessage) (now : Nat) :
    (sendMessage st req (Except.ok tm) now).1.conversations
      = setKey st.conversations req.to_
          (((getKey st.conversations req.to_).getD []) ++ [sentMessageData tm now]) := by
  unfold sendMessage
  cases h : truthyStr req.customerName <;> simp [h]

theorem sendMessage_ok_trace (st : ServerState) (req : SendReq)
    (tm : TwilioMessage) (now : Nat) :
    (sendMessage st req (Except.ok tm) now).2.1
      = (match truthyStr req.customerName with
         | some _ => [Action.writeCustomers]
         | none => []) ++
        [Action.writeConversations,
         Action.emitEvent (Event.newMessage req.to_ (sentMessageData tm now))] := by
  unfold sendMessage
  cases h : truthyStr req.customerName <;> simp [h]

theorem sendMessage_ok_response (st : ServerState) (req : SendReq)
    (tm : TwilioMessage) (now : Nat) :
    (sendMessage st req (Except.ok tm) now).2.2
      = SendResponse.success (sentMessageData tm now) := by
  unfold sendMessage
  cases h : truthyStr req.customerName <;> simp [h]

theorem webhookV1_server (st : ServerState) (req : WebhookReq)
    (ownerPhone : Option String) (now : Nat) (persistOk forwardOk : Bool) :
    (webhookV1 st req ownerPhone now persistOk forwardOk).1
      = ⟨st.customers, webhookConversations st req now⟩ := by
  unfold webhookV1
  cases persistOk <;> cases forwardOk <;> cases h : truthyStr ownerPhone <;> simp [h]

theorem webhookV2_server (st : ServerState) (req : WebhookReq)
    (ownerPhone : Option String) (now : Nat) (persistOk forwardOk : Bool) :
    (webhookV2 st req ownerPhone now persistOk forwardOk).1
      = ⟨st.customers, webhookConversations st req now⟩ := by
  unfold webhookV2
  cases persistOk <;> cases forwardOk <;> cases h : truthyStr ownerPhone <;> simp [h]

/-! ## Claim C1 -/

/-- Claim C1: a successful `POST /send-message` for `(to, body)` appends
exactly one new Message to the recipient's conversation (created when
absent), leaves every other conversation untouched, gives the appended
message direction `"outbound"`, publishes exactly one `new-message` event
whose payload is the recipient number and the appended message, and returns
that same message in the response. -/
theorem sendMessage_success_spec (st : ServerState) (req : SendReq)
    (tm : TwilioMessage) (now : Nat) :
    (sendMessage st req (Except.ok tm) now).1.conversations
        = setKey st.conversations req.to_
            (((getKey st.conversations req.to_).getD []) ++ [sentMessageData tm now]) ∧
    getKey (sendMessage st req (Except.ok tm) now).1.conversations req.to_
        = some (((getKey st.conversations req.to_).getD []) ++ [sentMessageData tm now]) ∧
    (∀ k, k ≠ req.to_ →
      getKey (sendMessage st req (Except.ok tm) now).1.conversations k
        = getKey st.conversations k) ∧
    (sentMessageData tm now).direction = "outbound" ∧
    (sendMessage st req (Except.ok tm) now).2.1.countP isEmitAction = 1 ∧
    Action.emitEvent (Event.newMessage req.to_ (sentMessageData tm now))
        ∈ (sendMessage st req (Except.ok tm) now).2.1 ∧
    (sendMessage st req (Except.ok tm) now).2.2
        = SendResponse.success (sentMessageData tm now) := by
  refine ⟨sendMessage_ok_conversations st req tm now, ?_, ?_, rfl, ?_, ?_, sendMessage_ok_response st req tm now⟩
  · rw [sendMessage_ok_conversations, getKey_setKey, if_pos rfl]
  · intro k hk
    rw [sendMessage_ok_conversations, getKey_setKey, if_neg hk]
  · rw [sendMessage_ok_trace]
    cases h : truthyStr req.customerName <;>
      simp [List.countP_cons, List.countP_nil, isEmitAction]
  · rw [sendMessage_ok_trace]
    cases h : truthyStr req.customerName <;> simp

/-- Instantiation of `sendMessage_success_spec` at a concrete state and
request, discharging its hypotheses. -/
theorem sendMessage_success_spec_check :
    getKey (sendMessage ⟨[], []⟩ ⟨"+15551234567", "hello", none⟩
        (Except.ok ⟨"SM1", "+15550000000", "+15551234567", "hello", "queued"⟩) 7).1.conversations
        "+15551234567"
      = some [sentMessageData ⟨"SM1", "+15550000000", "+15551234567", "hello", "queued"⟩ 7] ∧
    getKey (sendMessage ⟨[], []⟩ ⟨"+15551234567", "hello", none⟩
        (Except.ok ⟨"SM1", "+15550000000", "+15551234567", "hello", "queued"⟩) 7).1.conversations
        "+15559999999"
      = none := by
  have h := sendMessage_success_spec ⟨[], []⟩ ⟨"+15551234567", "hello", none⟩
    ⟨"SM1", "+15550000000", "+15551234567", "hello", "queued"⟩ 7
  exact ⟨h.2.1.trans rfl, (h.2.2.1 "+15559999999" (by decide)).trans rfl⟩

/-! ## Claim C2 -/

/-- Claim C2: when the Twilio send call rejects, the handler answers with a
500 error and commits nothing: the contact map and the conversation index
are exactly the pre-call state, and no action (write, emit, send) took
place. -/
theorem sendMessage_provider_failure_atomic (st : ServerState) (req : SendReq)
    (e : String) (now : Nat) :
    (sendMessage st req (Except.error e) now).1.customers = st.customers ∧
    (sendMessage st req (Except.error e) now).1.conversations = st.conversations ∧
    (sendMessage st req (Except.error e) now).1 = st ∧
    (sendMessage st req (Except.error e) now).2.1 = [] ∧
    (sendMessage st req (Except.error e) now).2.2 = SendResponse.err 500 e :=
  ⟨rfl, rfl, rfl, rfl, rfl⟩

/-! ## Claim C5 -/

/-- Claim C5: deleting an existing conversation removes exactly that entry
(the phone number disappears from the listed index and its lookup turns
`none`, other entries unchanged) and answers success; deleting an absent one
answers 404 and leaves the whole state unchanged. -/
theorem deleteConversation_spec (st : ServerState) (p : String) :
    (∀ ms, getKey st.conversations p = some ms →
      (deleteConversation st p).2.2 = DeleteResponse.success ∧
      getKey (deleteConversation st p).1.conversations p = none ∧
      p ∉ keysOf (deleteConversation st p).1.conversations ∧
      (deleteConversation st p).1.customers = st.customers ∧
      ∀ k, k ≠ p →
        getKey (deleteConversation st p).1.conversations k = getKey st.conversations k) ∧
    (getKey st.conversations p = none →
      deleteConversation st p = (st, [], DeleteResponse.notFound)) := by
  constructor
  · intro ms h
    refine ⟨?_, ?_, ?_, ?_, ?_⟩ <;>
      simp only [deleteConversation, h]
    · rw [getKey_delKey, if_pos rfl]
    · exact keysOf_delKey_not_mem st.conversations p
    · intro k hk
      rw [getKey_delKey, if_neg hk]
  · intro h
    simp [deleteConversation, h]

/-- Instantiation of `deleteConversation_spec` at a concrete index,
discharging its hypotheses in both branches. -/
theorem deleteConversation_spec_check :
    getKey (deleteConversation
        ⟨[], [("+15551111111",
               [⟨"SM1", "+15551111111", "+15550000000", "hi", "inbound", 0, "received"⟩])]⟩
        "+15551111111").1.conversations "+15551111111" = none ∧
    deleteConversation (⟨[], []⟩ : ServerState) "+15557777777"
      = (⟨[], []⟩, [], DeleteResponse.notFound) := by
  have h1 := (deleteConversation_spec
    ⟨[], [("+15551111111",
           [⟨"SM1", "+15551111111", "+15550000000", "hi", "inbound", 0, "received"⟩])]⟩
    "+15551111111").1
    [⟨"SM1", "+15551111111", "+15550000000", "hi", "inbound", 0, "received"⟩] rfl
  have h2 := (deleteConversation_spec (⟨[], []⟩ : ServerState) "+15557777777").2 rfl
  exact ⟨h1.2.1, h2⟩

/-! ## Claim C8 -/

/-- Claim C8: importing an object merges it into the contact map with
imported entries overwriting existing ones on key collision (pointwise,
the result looks up the imported value first, then the old one), keeps key
uniqueness, reports `imported` as the number of imported keys and `total`
as the number of keys of the resulting map, and leaves conversations
untouched; a non-object body (or JSON null) is rejected with a 400 error
and the state is unchanged. -/
theorem importCustomers_merge_spec (st : ServerState) (imported : CustomerMap)
    (raw : String) (hs : keysNodup imported) (ht : keysNodup st.customers) :
    (∀ k, getKey (importCustomers st (ImportBody.obj imported)).1.customers k
        = orKey (getKey imported k) (getKey st.customers k)) ∧
    keysNodup (importCustomers st (ImportBody.obj imported)).1.customers ∧
    (importCustomers st (ImportBody.obj imported)).1.conversations = st.conversations ∧
    (importCustomers st (ImportBody.obj imported)).2.2
        = ImportResult.success (keysOf imported).length
            (keysOf (importCustomers st (ImportBody.obj imported)).1.customers).length ∧
    importCustomers st (ImportBody.nonObjectPrim raw)
        = (st, [], ImportResult.err 400 "Invalid file format") ∧
    importCustomers st ImportBody.nullValue
        = (st, [], ImportResult.err 400 "Invalid file format") := by
  refine ⟨?_, ?_, rfl, rfl, rfl, rfl⟩
  · intro k
    exact getKey_objAssign st.customers imported k hs
  · exact keysNodup_objAssign ht imported

/-- Instantiation of `importCustomers_merge_spec` on the worked example of
the specification: importing `{"+15551234567": "Alice"}` into
`{"+15551234567": "Old Name", "+15559999999": "Bob"}`. -/
theorem importCustomers_merge_spec_check :
    getKey (importCustomers
        ⟨[("+15551234567", "Old Name"), ("+15559999999", "Bob")], []⟩
        (ImportBody.obj [("+15551234567", "Alice")])).1.customers "+15551234567"
      = some "Alice" ∧
    getKey (importCustomers
        ⟨[("+15551234567", "Old Name"), ("+15559999999", "Bob")], []⟩
        (ImportBody.obj [("+15551234567", "Alice")])).1.customers "+15559999999"
      = some "Bob" ∧
    (importCustomers
        ⟨[("+15551234567", "Old Name"), ("+15559999999", "Bob")], []⟩
        (ImportBody.obj [("+15551234567", "Alice")])).2.2
      = ImportResult.success 1 2 := by
  have h := importCustomers_merge_spec
    ⟨[("+15551234567", "Old Name"), ("+15559999999", "Bob")], []⟩
    [("+15551234567", "Alice")] "x" (by decide) (by decide)
  exact ⟨(h.1 "+15551234567").trans (by decide),
         (h.1 "+15559999999").trans (by decide),
         h.2.2.2.1.trans (by decide)⟩

/-! ## Claim C9 -/

/-- Claim C9: exporting the contact map and importing the export right back
leaves the state exactly as it was, and the import reports
`imported = total = ` the size of the map. -/
theorem exportImport_roundtrip (st : ServerState) (h : keysNodup st.customers) :
    (importCustomers st (ImportBody.obj (exportCustomers st))).1 = st ∧
    (importCustomers st (ImportBody.obj (exportCustomers st))).2.2
        = ImportResult.success (keysOf st.customers).length
            (keysOf st.customers).length := by
  have hm : objAssign st.customers st.customers = st.customers := objAssign_self h
  constructor
  · show (⟨objAssign st.customers (exportCustomers st), st.conversations⟩ : ServerState) = st
    rw [exportCustomers, hm]
  · show ImportResult.success (keysOf (exportCustomers st)).length
        (keysOf (objAssign st.customers (exportCustomers st))).length = _
    rw [exportCustomers, hm]

/-! ## Grouping-loop lemmas for the resync code -/

theorem foldl_groupStep_sound (key : TwilioRecord → String) (ent : TwilioRecord → Message)
    (Good : String → Message → Prop) (hGood : ∀ m, Good (key m) (ent m)) :
    ∀ (msgs : List TwilioRecord) (conv : ConversationIndex),
      (∀ k ms, getKey conv k = some ms → ms ≠ [] ∧ ∀ e ∈ ms, Good k e) →
      ∀ k ms, getKey (msgs.foldl (groupStep key ent) conv) k = some ms →
        ms ≠ [] ∧ ∀ e ∈ ms, Good k e := by
  intro msgs
  induction msgs with
  | nil => intro conv hconv; exact hconv
  | cons m rest ih =>
    intro conv hconv
    apply ih
    intro k ms hk
    unfold groupStep at hk
    rw [getKey_setKey] at hk
    by_cases h : k = key m
    · subst h
      rw [if_pos rfl] at hk
      have hms : ((getKey conv (key m)).getD []) ++ [ent m] = ms := Option.some_injective _ hk
      subst hms
      constructor
      · simp
      · intro e he
        rcases List.mem_append.mp he with h1 | h1
        · cases hv : getKey conv (key m) with
          | none => rw [hv] at h1; simp at h1
          | some o =>
            rw [hv] at h1
            exact (hconv (key m) o hv).2 e h1
        · have he2 : e = ent m := by simpa using h1
          subst he2
          exact hGood m
    · rw [if_neg h] at hk
      exact hconv k ms hk

theorem groupRecords_sound (key : TwilioRecord → String) (ent : TwilioRecord → Message)
    (Good : String → Message → Prop) (hGood : ∀ m, Good (key m) (ent m))
    (msgs : List TwilioRecord) :
    ∀ k ms, getKey (groupRecords key ent msgs) k = some ms →
      ms ≠ [] ∧ ∀ e ∈ ms, Good k e :=
  foldl_groupStep_sound key ent Good hGood msgs []
    (by intro k ms h; simp [getKey] at h)

theorem foldl_groupStep_mem (key : TwilioRecord → String) (ent : TwilioRecord → Message) :
    ∀ (msgs : List TwilioRecord) (conv : ConversationIndex) (k : String) (e : Message),
      (∃ ms, getKey conv k = some ms ∧ e ∈ ms) →
      ∃ ms, getKey (msgs.foldl (groupStep key ent) conv) k = some ms ∧ e ∈ ms := by
  intro msgs
  induction msgs with
  | nil => intro conv k e h; exact h
  | cons m rest ih =>
    rintro conv k e ⟨ms, hms, hmem⟩
    apply ih
    by_cases h : k = key m
    · subst h
      refine ⟨ms ++ [ent m], ?_, List.mem_append.mpr (Or.inl hmem)⟩
      unfold groupStep
      rw [getKey_setKey, if_pos rfl, hms]
      rfl
    · exact ⟨ms, by unfold groupStep; rw [getKey_setKey, if_neg h]; exact hms, hmem⟩

theorem foldl_groupStep_complete (key : TwilioRecord → String) (ent : TwilioRecord → Message) :
    ∀ (msgs : List TwilioRecord) (conv : ConversationIndex) (m : TwilioRecord), m ∈ msgs →
      ∃ ms, getKey (msgs.foldl (groupStep key ent) conv) (key m) = some ms ∧ ent m ∈ ms := by
  intro msgs
  induction msgs with
  | nil => intro conv m hm; cases hm
  | cons m0 rest ih =>
    intro conv m hm
    rcases List.mem_cons.mp hm with h | hm'
    · subst h
      rw [List.foldl_cons]
      apply foldl_groupStep_mem
      refine ⟨((getKey conv (key m)).getD []) ++ [ent m], ?_, ?_⟩
      · unfold groupStep
        rw [getKey_setKey, if_pos rfl]
      · exact List.mem_append.mpr (Or.inr (List.mem_singleton.mpr rfl))
    · exact ih (groupStep key ent conv m0) m hm'

theorem groupRecords_complete (key : TwilioRecord → String) (ent : TwilioRecord → Message)
    (msgs : List TwilioRecord) :
    ∀ m ∈ msgs, ∃ ms, getKey (groupRecords key ent msgs) (key m) = some ms ∧ ent m ∈ ms :=
  fun m hm => foldl_groupStep_complete key ent msgs [] m hm

theorem getKey_sortConversations (conv : ConversationIndex) (k : String) :
    getKey (sortConversations conv) k = (getKey conv k).map (List.insertionSort tsLe) := by
  induction conv with
  | nil => rfl
  | cons p ps ih =>
    by_cases h : p.1 = k
    · simp [sortConversations, getKey_cons, h]
    · simp only [sortConversations, List.map_cons, getKey_cons, h, if_false]
      simpa [sortConversations] using ih

/-! ## Claim C6 -/

/-- Claim C6 (amended): variant 1 of `loadConversationsFromTwilio` builds
the new index purely from the fetched messages — independent of the old
in-memory index — classifying each message by comparing its origin with the
configured outbound number, grouping it under the counterparty, sorting
each group by timestamp ascending, and on fetch failure produces the
persisted snapshot when one exists, else the empty index.  (Variant 2
instead trusts the provider's `direction` field verbatim and never consults
the outbound number, so its entries need not satisfy the
origin-comparison classification.) -/
theorem loadConversationsV1_spec (old1 old2 : ConversationIndex) (our : String)
    (snap : Option ConversationIndex) (msgs : List TwilioRecord) (err : String) :
    loadConversationsFromTwilioV1 old1 (Except.ok msgs) our snap
        = loadConversationsFromTwilioV1 old2 (Except.ok msgs) our snap ∧
    loadConversationsFromTwilioV1 old1 (Except.error err) our snap = snap.getD [] ∧
    (∀ k ms,
      getKey (loadConversationsFromTwilioV1 old1 (Except.ok msgs) our snap) k = some ms →
      ms ≠ [] ∧ List.Sorted tsLe ms ∧
      ∀ e ∈ ms, e.direction = (if e.from_ = our then "outbound" else "inbound") ∧
        k = (if e.from_ = our then e.to_ else e.from_)) ∧
    (∀ m ∈ msgs, ∃ ms,
      getKey (loadConversationsFromTwilioV1 old1 (Except.ok msgs) our snap)
          (counterpartyV1 our m) = some ms ∧ entryV1 our m ∈ ms) := by
  have hGood : ∀ m : TwilioRecord,
      (entryV1 our m).direction
          = (if (entryV1 our m).from_ = our then "outbound" else "inbound") ∧
      counterpartyV1 our m
          = (if (entryV1 our m).from_ = our then (entryV1 our m).to_ else (entryV1 our m).from_) := by
    intro m
    by_cases h : m.from_ = our <;> simp [entryV1, counterpartyV1, h]
  refine ⟨rfl, rfl, ?_, ?_⟩
  · intro k ms hk
    simp only [loadConversationsFromTwilioV1] at hk
    rw [getKey_sortConversations] at hk
    cases hg : getKey (groupRecords (counterpartyV1 our) (entryV1 our) msgs) k with
    | none => rw [hg] at hk; cases hk
    | some g =>
      rw [hg] at hk
      have hms : List.insertionSort tsLe g = ms := Option.some_injective _ hk
      subst hms
      have hsound := groupRecords_sound (counterpartyV1 our) (entryV1 our)
        (fun k' e => e.direction = (if e.from_ = our then "outbound" else "inbound") ∧
          k' = (if e.from_ = our then e.to_ else e.from_))
        hGood msgs k g hg
      refine ⟨?_, List.sorted_insertionSort tsLe g, ?_⟩
      · intro hnil
        exact hsound.1 (List.Perm.eq_nil ((List.perm_insertionSort tsLe g).symm.trans
          (hnil ▸ List.Perm.refl _)))
      · intro e he
        exact hsound.2 e ((List.perm_insertionSort tsLe g).mem_iff.mp he)
  · intro m hm
    obtain ⟨ms, hms, hmem⟩ :=
      groupRecords_complete (counterpartyV1 our) (entryV1 our) msgs m hm
    refine ⟨List.insertionSort tsLe ms, ?_, ?_⟩
    · simp only [loadConversationsFromTwilioV1]
      rw [getKey_sortConversations, hms]
      rfl
    · exact (List.perm_insertionSort tsLe ms).mem_iff.mpr hmem

/-- Instantiation of `loadConversationsV1_spec` at a concrete message list,
discharging its hypotheses. -/
theorem loadConversationsV1_spec_check :
    getKey (loadConversationsFromTwilioV1 [] (Except.ok
        [⟨"SM2", "+15550000000", "+15551111111", "hello", "outbound-api", 9, "delivered"⟩,
         ⟨"SM1", "+15551111111", "+15550000000", "hi", "inbound", 4, "received"⟩])
        "+15550000000" none) "+15551111111"
      = some [⟨"SM1", "+15551111111", "+15550000000", "hi", "inbound", 4, "received"⟩,
              ⟨"SM2", "+15550000000", "+15551111111", "hello", "outbound", 9, "delivered"⟩] ∧
    ([⟨"SM1", "+15551111111", "+15550000000", "hi", "inbound", 4, "received"⟩,
      ⟨"SM2", "+15550000000", "+15551111111", "hello", "outbound", 9, "delivered"⟩]
        : List Message) ≠ [] ∧
    loadConversationsFromTwilioV1 [("+15553333333",
        [⟨"SMX", "+15553333333", "+15550000000", "old", "inbound", 1, "received"⟩])]
      (Except.error "boom") "+15550000000" none = [] := by
  have h := loadConversationsV1_spec
    [("+15553333333", [⟨"SMX", "+15553333333", "+15550000000", "old", "inbound", 1, "received"⟩])]
    [] "+15550000000" none
    [⟨"SM2", "+15550000000", "+15551111111", "hello", "outbound-api", 9, "delivered"⟩,
     ⟨"SM1", "+15551111111", "+15550000000", "hi", "inbound", 4, "received"⟩] "boom"
  refine ⟨by decide, by decide, h.2.1.trans rfl⟩

/-- Claim C6 counterexample: variant 2 of `loadConversationsFromTwilio`
stores the provider's direction field verbatim (`"outbound-api"` here) and
groups by that field, so the record from `"+15551111111"` — which
origin-comparison against the outbound number `"+15550000000"` would
classify `"inbound"` and group under `"+15551111111"` — lands under
`"+15552222222"` with direction `"outbound-api"`. -/
theorem loadConversationsV2_direction_cex :
    getKey (loadConversationsFromTwilioV2 [] (Except.ok
        [⟨"SM777", "+15551111111", "+15552222222", "hello", "outbound-api", 5, "delivered"⟩])
        none) "+15552222222"
      = some [⟨"SM777", "+15551111111", "+15552222222", "hello", "outbound-api", 5, "delivered"⟩] ∧
    getKey (loadConversationsFromTwilioV2 [] (Except.ok
        [⟨"SM777", "+15551111111", "+15552222222", "hello", "outbound-api", 5, "delivered"⟩])
        none) "+15551111111" = none ∧
    ("outbound-api" : String)
      ≠ (if ("+15551111111" : String) = "+15550000000" then "outbound" else "inbound") := by
  exact ⟨by decide, by decide, by decide⟩

theorem stringAppend_assoc (a b c : String) : a ++ b ++ c = a ++ (b ++ c) := by
  cases a; cases b; cases c
  simp only [HAppend.hAppend, Append.append, String.append]
  rw [List.append_eq, List.append_eq, List.append_eq, List.append_eq, List.append_assoc]

/-! ## Claim C3 -/

/-- Claim C3 (amended): webhook variant 1 replies with the well-formed TwiML
acknowledgment body on every invocation — also when the persistence or the
owner-forwarding step fails, though those failing invocations carry HTTP
status 500 instead of 200; webhook variant 2 replies `200 OK` only when no
step fails and replies `500 Error` — not an acknowledgment — when the
persistence or forwarding step fails. -/
theorem webhook_response_spec (st : ServerState) (req : WebhookReq)
    (ownerPhone : Option String) (now : Nat) (persistOk forwardOk : Bool) :
    (webhookV1 st req ownerPhone now persistOk forwardOk).2.2.body = twimlResponse ∧
    (webhookV1 st req ownerPhone now persistOk forwardOk).2.2.contentType = "text/xml" ∧
    (webhookV1 st req ownerPhone now true true).2.2.status = 200 ∧
    (webhookV2 st req ownerPhone now true true).2.2 = ⟨200, "text/html", "OK"⟩ ∧
    (webhookV2 st req ownerPhone now false forwardOk).2.2 = ⟨500, "text/html", "Error"⟩ ∧
    (∀ owner, truthyStr ownerPhone = some owner →
      (webhookV2 st req ownerPhone now true false).2.2 = ⟨500, "text/html", "Error"⟩) := by
  refine ⟨?_, ?_, ?_, ?_, ?_, ?_⟩
  · unfold webhookV1
    cases persistOk <;> cases forwardOk <;> cases h : truthyStr ownerPhone <;> simp [h]
  · unfold webhookV1
    cases persistOk <;> cases forwardOk <;> cases h : truthyStr ownerPhone <;> simp [h]
  · unfold webhookV1
    cases h : truthyStr ownerPhone <;> simp [h]
  · unfold webhookV2
    cases h : truthyStr ownerPhone <;> simp [h]
  · unfold webhookV2
    cases h : truthyStr ownerPhone <;> simp [h]
  · intro owner h
    unfold webhookV2
    simp [h]

/-- Instantiation of `webhook_response_spec` at a concrete failing variant-2
invocation with a configured owner number, discharging its hypothesis. -/
theorem webhook_response_spec_check :
    (webhookV2 ⟨[], []⟩ ⟨"+15551111111", "+15550000000", "hi", "SM1"⟩
        (some "+15552222222") 0 true false).2.2 = ⟨500, "text/html", "Error"⟩ ∧
    (webhookV1 ⟨[], []⟩ ⟨"+15551111111", "+15550000000", "hi", "SM1"⟩
        (some "+15552222222") 0 false true).2.2.body = twimlResponse := by
  have h := webhook_response_spec ⟨[], []⟩ ⟨"+15551111111", "+15550000000", "hi", "SM1"⟩
    (some "+15552222222") 0 false true
  exact ⟨(webhook_response_spec ⟨[], []⟩ ⟨"+15551111111", "+15550000000", "hi", "SM1"⟩
    (some "+15552222222") 0 true false).2.2.2.2.2 "+15552222222" (by decide), h.1⟩

/-- Claim C3 counterexample: a variant-2 webhook invocation whose
persistence step fails responds `500 Error`, which is neither the `OK`
acknowledgment nor the TwiML acknowledgment document — the failing path
does not acknowledge receipt. -/
theorem webhookV2_failure_not_ack :
    (webhookV2 ⟨[], []⟩ ⟨"+15551111111", "+15550000000", "hi", "SM1"⟩ none 0 false true).2.2
      = ⟨500, "text/html", "Error"⟩ ∧
    ("Error" : String) ≠ "OK" ∧
    ("Error" : String) ≠ twimlResponse := by
  exact ⟨rfl, by decide, by decide⟩

/-! ## Claim C4 -/

/-- The concrete webhook request of the specification's worked scenario. -/
def c4req : WebhookReq :=
  ⟨"+15551111111", "+15550000000", "Yes, 3pm works", "SM123"⟩

/-- Claim C4 (amended): on the scenario webhook request with owner
forwarding configured to `"+15552222222"` and both external steps
succeeding, exactly one inbound message with status `"received"` is
appended to the sender's conversation (created when absent), exactly one
provider message is sent to the owner whose body is `"SMS from "` followed
by the stored display name when a contact with a nonempty name exists —
else the raw sender number — then `": "` and the inbound body, and exactly
one `new-message` event for the sender is published.  (The raw number is
also used when a contact exists whose stored name is the empty string,
since the code tests `customers[From] || From`.) -/
theorem webhookV1_c4_flow (customers : CustomerMap) (conv : ConversationIndex) (now : Nat) :
    (webhookV1 ⟨customers, conv⟩ c4req (some "+15552222222") now true true).1.conversations
        = setKey conv "+15551111111"
            (((getKey conv "+15551111111").getD []) ++ [webhookMessageData c4req now]) ∧
    (webhookMessageData c4req now).direction = "inbound" ∧
    (webhookMessageData c4req now).status = "received" ∧
    (webhookMessageData c4req now).id = "SM123" ∧
    (webhookV1 ⟨customers, conv⟩ c4req (some "+15552222222") now true true).2.1
        = [Action.writeConversations,
           Action.twilioSend "+15552222222" (forwardBody customers c4req),
           Action.emitEvent (Event.newMessage "+15551111111" (webhookMessageData c4req now))] ∧
    (webhookV1 ⟨customers, conv⟩ c4req (some "+15552222222") now true true).2.1.countP
        isTwilioSendAction = 1 ∧
    (webhookV1 ⟨customers, conv⟩ c4req (some "+15552222222") now true true).2.1.countP
        isEmitAction = 1 ∧
    (getKey customers "+15551111111" = none →
      forwardBody customers c4req = "SMS from +15551111111: Yes, 3pm works") ∧
    (∀ n, getKey customers "+15551111111" = some n → n ≠ "" →
      forwardBody customers c4req = "SMS from " ++ n ++ ": Yes, 3pm works") := by
  refine ⟨rfl, rfl, rfl, rfl, rfl, rfl, rfl, ?_, ?_⟩
  · intro h
    unfold forwardBody forwardDisplayName c4req
    rw [h]
    rfl
  · intro n h hn
    unfold forwardBody forwardDisplayName c4req
    rw [h]
    simp only [truthyStr, if_neg hn]
    rw [stringAppend_assoc]
    rfl

/-- Instantiation of `webhookV1_c4_flow` at a concrete contact map holding
`{"+15551111111": "Alice"}`, discharging its hypotheses. -/
theorem webhookV1_c4_flow_check :
    getKey (webhookV1 ⟨[("+15551111111", "Alice")], []⟩ c4req
        (some "+15552222222") 3 true true).1.conversations "+15551111111"
      = some [webhookMessageData c4req 3] ∧
    forwardBody [("+15551111111", "Alice")] c4req = "SMS from Alice: Yes, 3pm works" ∧
    (webhookV1 ⟨[("+15551111111", "Alice")], []⟩ c4req
        (some "+15552222222") 3 true true).2.1.countP isEmitAction = 1 := by
  have h := webhookV1_c4_flow [("+15551111111", "Alice")] [] 3
  refine ⟨?_, ?_, h.2.2.2.2.2.2.1⟩
  · rw [h.1]
    rfl
  · exact (h.2.2.2.2.2.2.2.2 "Alice" rfl (by decide)).trans (by decide)

/-- Claim C4 counterexample: when a contact exists for the sender but its
stored display name is the empty string, the forwarded body uses the raw
number — `"SMS from +15551111111: Yes, 3pm works"` — not the stored display
name as the claim reads. -/
theorem webhookV1_c4_empty_name_cex :
    getKey [("+15551111111", "")] "+15551111111" = some "" ∧
    (webhookV1 ⟨[("+15551111111", "")], []⟩ c4req (some "+15552222222") 0 true true).2.1
      = [Action.writeConversations,
         Action.twilioSend "+15552222222" "SMS from +15551111111: Yes, 3pm works",
         Action.emitEvent (Event.newMessage "+15551111111" (webhookMessageData c4req 0))] ∧
    ("SMS from +15551111111: Yes, 3pm works" : String) ≠ "SMS from : Yes, 3pm works" := by
  exact ⟨rfl, rfl, by decide⟩

/-! ## Claim C7 -/

/-- Exactly one broadcast in the trace, and no broadcast before the
`conversations.json` disk write. -/
def emitsOnceAfterWrite (tr : List Action) : Prop :=
  tr.countP isEmitAction = 1 ∧
  (tr.takeWhile fun a => !(isWriteConvsAction a)).countP isEmitAction = 0

/-- Claim C7 (amended): every conversation-changing handler execution that
completes without a step failure publishes exactly one event, after the
disk write persisting the change, and executions that do not change the
index publish none; however a webhook execution whose persistence or
owner-forwarding step fails has already changed the in-memory index and
publishes zero events. -/
theorem mutation_event_discipline (st : ServerState) (req : SendReq)
    (tm : TwilioMessage) (e : String) (wreq : WebhookReq)
    (ownerPhone : Option String) (now : Nat) (p : String) :
    emitsOnceAfterWrite (sendMessage st req (Except.ok tm) now).2.1 ∧
    ((sendMessage st req (Except.error e) now).1 = st ∧
      (sendMessage st req (Except.error e) now).2.1.countP isEmitAction = 0) ∧
    emitsOnceAfterWrite (webhookV1 st wreq ownerPhone now true true).2.1 ∧
    emitsOnceAfterWrite (webhookV2 st wreq ownerPhone now true true).2.1 ∧
    (∀ owner, truthyStr ownerPhone = some owner →
      (webhookV1 st wreq ownerPhone now true false).1.conversations
          = webhookConversations st wreq now ∧
      (webhookV1 st wreq ownerPhone now true false).2.1.countP isEmitAction = 0) ∧
    ((webhookV1 st wreq ownerPhone now false true).1.conversations
        = webhookConversations st wreq now ∧
      (webhookV1 st wreq ownerPhone now false true).2.1.countP isEmitAction = 0) ∧
    (∀ ms, getKey st.conversations p = some ms →
      emitsOnceAfterWrite (deleteConversation st p).2.1) ∧
    (getKey st.conversations p = none →
      (deleteConversation st p).1 = st ∧
      (deleteConversation st p).2.1.countP isEmitAction = 0) := by
  refine ⟨?_, ⟨rfl, rfl⟩, ?_, ?_, ?_, ?_, ?_, ?_⟩
  · rw [emitsOnceAfterWrite, sendMessage_ok_trace]
    cases h : truthyStr req.customerName <;>
      exact ⟨rfl, rfl⟩
  · unfold webhookV1
    cases h : truthyStr ownerPhone <;> simp [h] <;> exact ⟨rfl, rfl⟩
  · unfold webhookV2
    cases h : truthyStr ownerPhone <;> simp [h] <;> exact ⟨rfl, rfl⟩
  · intro owner h
    unfold webhookV1
    simp [h, isEmitAction]
  · constructor
    · rw [webhookV1_server]
    · unfold webhookV1
      cases h : truthyStr ownerPhone <;> simp [h]
  · intro ms h
    unfold deleteConversation
    rw [h]
    exact ⟨rfl, rfl⟩
  · intro h
    unfold deleteConversation
    rw [h]
    exact ⟨rfl, rfl⟩

/-- Instantiation of `mutation_event_discipline` at concrete inputs,
discharging its hypotheses. -/
theorem mutation_event_discipline_check :
    emitsOnceAfterWrite (sendMessage ⟨[], []⟩ ⟨"+15551234567", "hello", none⟩
        (Except.ok ⟨"SM1", "+15550000000", "+15551234567", "hello", "queued"⟩) 7).2.1 ∧
    (webhookV1 ⟨[], []⟩ ⟨"+15551111111", "+15550000000", "hi", "SM1"⟩
        (some "+15552222222") 0 true false).2.1.countP isEmitAction = 0 := by
  have h := mutation_event_discipline ⟨[], []⟩ ⟨"+15551234567", "hello", none⟩
    ⟨"SM1", "+15550000000", "+15551234567", "hello", "queued"⟩ "boom"
    ⟨"+15551111111", "+15550000000", "hi", "SM1"⟩ (some "+15552222222") 0 "+15551111111"
  exact ⟨h.1, (h.2.2.2.2.1 "+15552222222" (by decide)).2⟩

/-- Claim C7 counterexample: a webhook execution (owner forwarding
configured, persistence succeeded, forward call failed) changes the
conversation index yet publishes zero events. -/
theorem webhook_forward_failure_zero_events_cex :
    (webhookV1 ⟨[], []⟩ ⟨"+15551111111", "+15550000000", "hi", "SM9"⟩
        (some "+15552222222") 0 true false).1.conversations
      = [("+15551111111",
          [⟨"SM9", "+15551111111", "+15550000000", "hi", "inbound", 0, "received"⟩])] ∧
    ([("+15551111111",
       [⟨"SM9", "+15551111111", "+15550000000", "hi", "inbound", 0, "received"⟩])]
      : ConversationIndex) ≠ [] ∧
    (webhookV1 ⟨[], []⟩ ⟨"+15551111111", "+15550000000", "hi", "SM9"⟩
        (some "+15552222222") 0 true false).2.1.countP isEmitAction = 0 := by
  exact ⟨rfl, by decide, rfl⟩

/-- Instantiation of `exportImport_roundtrip` at a concrete contact map,
discharging its hypothesis. -/
theorem exportImport_roundtrip_check :
    (importCustomers ⟨[("+15551234567", "Alice"), ("+15559999999", "Bob")], []⟩
        (ImportBody.obj (exportCustomers
          ⟨[("+15551234567", "Alice"), ("+15559999999", "Bob")], []⟩))).1
      = ⟨[("+15551234567", "Alice"), ("+15559999999", "Bob")], []⟩ ∧
    (importCustomers ⟨[("+15551234567", "Alice"), ("+15559999999", "Bob")], []⟩
        (ImportBody.obj (exportCustomers
          ⟨[("+15551234567", "Alice"), ("+15559999999", "Bob")], []⟩))).2.2
      = ImportResult.success 2 2 := by
  have h := exportImport_roundtrip
    ⟨[("+15551234567", "Alice"), ("+15559999999", "Bob")], []⟩ (by decide)
  exact ⟨h.1, h.2.trans (by decide)⟩

/-! ## Claim C10: reachable states -/

/-- Every conversation present in the index is a nonempty message list. -/
def convsNonempty (c : ConversationIndex) : Prop :=
  ∀ k ms, getKey c k = some ms → ms ≠ []

theorem convsNonempty_nil : convsNonempty [] := by
  intro k ms h
  simp [getKey] at h

theorem convsNonempty_setKey {c : ConversationIndex} (h : convsNonempty c)
    (k : String) (v : List Message) (hv : v ≠ []) : convsNonempty (setKey c k v) := by
  intro k' ms hk
  rw [getKey_setKey] at hk
  by_cases he : k' = k
  · rw [if_pos he] at hk
    exact (Option.some_injective _ hk) ▸ hv
  · rw [if_neg he] at hk
    exact h k' ms hk

theorem convsNonempty_delKey {c : ConversationIndex} (h : convsNonempty c)
    (k : String) : convsNonempty (delKey c k) := by
  intro k' ms hk
  rw [getKey_delKey] at hk
  by_cases he : k' = k
  · rw [if_pos he] at hk; cases hk
  · rw [if_neg he] at hk
    exact h k' ms hk

theorem convsNonempty_groupRecords (key : TwilioRecord → String)
    (ent : TwilioRecord → Message) (msgs : List TwilioRecord) :
    convsNonempty (groupRecords key ent msgs) := by
  intro k ms h
  exact (groupRecords_sound key ent (fun _ _ => True) (fun _ => trivial) msgs k ms h).1

theorem convsNonempty_sortConversations {c : ConversationIndex}
    (h : convsNonempty c) : convsNonempty (sortConversations c) := by
  intro k ms hk
  rw [getKey_sortConversations] at hk
  cases hg : getKey c k with
  | none => rw [hg] at hk; cases hk
  | some g =>
    rw [hg] at hk
    have hms : List.insertionSort tsLe g = ms := Option.some_injective _ hk
    subst hms
    intro hnil
    exact h k g hg (List.Perm.eq_nil ((List.perm_insertionSort tsLe g).symm.trans
      (hnil ▸ List.Perm.refl _)))

/-- The full system state: the in-memory server state plus the durable
`conversations.json` mirror (`none` = file absent or unreadable). -/
structure SysState where
  server : ServerState
  disk : Option ConversationIndex
  deriving DecidableEq, Repr

/-- The disk mirror after a handler run: refreshed exactly when the trace
performed the `conversations.json` write. -/
def diskAfter (old : Option ConversationIndex) (newConvs : ConversationIndex)
    (tr : List Action) : Option ConversationIndex :=
  if tr.any isWriteConvsAction then some newConvs else old

/-- System state after a `POST /send-message` run. -/
def afterSend (s : SysState) (req : SendReq) (tres : Except String TwilioMessage)
    (now : Nat) : SysState :=
  ⟨(sendMessage s.server req tres now).1,
   diskAfter s.disk (sendMessage s.server req tres now).1.conversations
     (sendMessage s.server req tres now).2.1⟩

/-- System state after a variant-1 webhook run. -/
def afterWebhook1 (s : SysState) (req : WebhookReq) (ownerPhone : Option String)
    (now : Nat) (persistOk forwardOk : Bool) : SysState :=
  ⟨(webhookV1 s.server req ownerPhone now persistOk forwardOk).1,
   diskAfter s.disk
     (webhookV1 s.server req ownerPhone now persistOk forwardOk).1.conversations
     (webhookV1 s.server req ownerPhone now persistOk forwardOk).2.1⟩

/-- System state after a variant-2 webhook run. -/
def afterWebhook2 (s : SysState) (req : WebhookReq) (ownerPhone : Option String)
    (now : Nat) (persistOk forwardOk : Bool) : SysState :=
  ⟨(webhookV2 s.server req ownerPhone now persistOk forwardOk).1,
   diskAfter s.disk
     (webhookV2 s.server req ownerPhone now persistOk forwardOk).1.conversations
     (webhookV2 s.server req ownerPhone now persistOk forwardOk).2.1⟩

/-- System state after a `DELETE /conversations/:phoneNumber` run. -/
def afterDelete (s : SysState) (p : String) : SysState :=
  ⟨(deleteConversation s.server p).1,
   diskAfter s.disk (deleteConversation s.server p).1.conversations
     (deleteConversation s.server p).2.1⟩

/-- System state after a variant-1 resync: on success the rebuilt index is
written to disk; on failure the catch block reads the old snapshot. -/
def afterResync1 (s : SysState) (fetch : Except String (List TwilioRecord))
    (our : String) : SysState :=
  ⟨⟨s.server.customers, loadConversationsFromTwilioV1 s.server.conversations fetch our s.disk⟩,
   match fetch with
   | Except.ok _ =>
       some (loadConversationsFromTwilioV1 s.server.conversations fetch our s.disk)
   | Except.error _ => s.disk⟩

/-- System state after a variant-2 resync. -/
def afterResync2 (s : SysState) (fetch : Except String (List TwilioRecord)) : SysState :=
  ⟨⟨s.server.customers, loadConversationsFromTwilioV2 s.server.conversations fetch s.disk⟩,
   match fetch with
   | Except.ok _ =>
       some (loadConversationsFromTwilioV2 s.server.conversations fetch s.disk)
   | Except.error _ => s.disk⟩

/-- One conversation-affecting operation of the server. -/
inductive Step : SysState → SysState → Prop where
  | send (s : SysState) (req : SendReq) (tres : Except String TwilioMessage) (now : Nat) :
      Step s (afterSend s req tres now)
  | webhook1 (s : SysState) (req : WebhookReq) (ownerPhone : Option String) (now : Nat)
      (persistOk forwardOk : Bool) :
      Step s (afterWebhook1 s req ownerPhone now persistOk forwardOk)
  | webhook2 (s : SysState) (req : WebhookReq) (ownerPhone : Option String) (now : Nat)
      (persistOk forwardOk : Bool) :
      Step s (afterWebhook2 s req ownerPhone now persistOk forwardOk)
  | delete (s : SysState) (p : String) : Step s (afterDelete s p)
  | resync1 (s : SysState) (fetch : Except String (List TwilioRecord)) (our : String) :
      Step s (afterResync1 s fetch our)
  | resync2 (s : SysState) (fetch : Except String (List TwilioRecord)) :
      Step s (afterResync2 s fetch)

/-- The boot state: empty maps, no conversations file yet. -/
def initialState : SysState := ⟨⟨[], []⟩, none⟩

/-- States reachable from the boot state by the operations above. -/
inductive Reachable : SysState → Prop where
  | init : Reachable initialState
  | step {s s' : SysState} : Reachable s → Step s s' → Reachable s'

/-- The inductive invariant: both the in-memory index and the persisted
snapshot hold only nonempty conversations. -/
def InvSys (s : SysState) : Prop :=
  convsNonempty s.server.conversations ∧ ∀ d, s.disk = some d → convsNonempty d

theorem diskAfter_inv {old : Option ConversationIndex} {c : ConversationIndex}
    {tr : List Action} (hold : ∀ d, old = some d → convsNonempty d)
    (hc : convsNonempty c) : ∀ d, diskAfter old c tr = some d → convsNonempty d := by
  intro d hd
  unfold diskAfter at hd
  by_cases h : tr.any isWriteConvsAction = true
  · rw [if_pos h] at hd
    exact (Option.some_injective _ hd) ▸ hc
  · rw [if_neg h] at hd
    exact hold d hd

theorem step_preserves_inv {s s' : SysState} (h : InvSys s) (hs : Step s s') :
    InvSys s' := by
  cases hs with
  | send req tres now =>
    cases tres with
    | error e => exact h
    | ok tm =>
      constructor
      · show convsNonempty (sendMessage s.server req (Except.ok tm) now).1.conversations
        rw [sendMessage_ok_conversations]
        exact convsNonempty_setKey h.1 _ _ (by simp)
      · apply diskAfter_inv h.2
        rw [sendMessage_ok_conversations]
        exact convsNonempty_setKey h.1 _ _ (by simp)
  | webhook1 req ownerPhone now persistOk forwardOk =>
    constructor
    · show convsNonempty
        (webhookV1 s.server req ownerPhone now persistOk forwardOk).1.conversations
      rw [webhookV1_server]
      show convsNonempty (webhookConversations s.server req now)
      unfold webhookConversations
      exact convsNonempty_setKey h.1 _ _ (by simp)
    · apply diskAfter_inv h.2
      rw [webhookV1_server]
      show convsNonempty (webhookConversations s.server req now)
      unfold webhookConversations
      exact convsNonempty_setKey h.1 _ _ (by simp)
  | webhook2 req ownerPhone now persistOk forwardOk =>
    constructor
    · show convsNonempty
        (webhookV2 s.server req ownerPhone now persistOk forwardOk).1.conversations
      rw [webhookV2_server]
      show convsNonempty (webhookConversations s.server req now)
      unfold webhookConversations
      exact convsNonempty_setKey h.1 _ _ (by simp)
    · apply diskAfter_inv h.2
      rw [webhookV2_server]
      show convsNonempty (webhookConversations s.server req now)
      unfold webhookConversations
      exact convsNonempty_setKey h.1 _ _ (by simp)
  | delete p =>
    cases hg : getKey s.server.conversations p with
    | none =>
      constructor
      · show convsNonempty (deleteConversation s.server p).1.conversations
        simp only [deleteConversation, hg]
        exact h.1
      · apply diskAfter_inv h.2
        simp only [deleteConversation, hg]
        exact h.1
    | some ms =>
      constructor
      · show convsNonempty (deleteConversation s.server p).1.conversations
        simp only [deleteConversation, hg]
        exact convsNonempty_delKey h.1 p
      · apply diskAfter_inv h.2
        simp only [deleteConversation, hg]
        exact convsNonempty_delKey h.1 p
  | resync1 fetch our =>
    cases fetch with
    | error e =>
      constructor
      · show convsNonempty (s.disk.getD [])
        cases hd : s.disk with
        | none => exact convsNonempty_nil
        | some d => exact h.2 d hd
      · exact h.2
    | ok msgs =>
      constructor
      · show convsNonempty
          (sortConversations (groupRecords (counterpartyV1 our) (entryV1 our) msgs))
        exact convsNonempty_sortConversations (convsNonempty_groupRecords _ _ _)
      · intro d hd
        have hd2 : some (sortConversations
            (groupRecords (counterpartyV1 our) (entryV1 our) msgs)) = some d := hd
        have : sortConversations (groupRecords (counterpartyV1 our) (entryV1 our) msgs) = d :=
          Option.some_injective _ hd2
        rw [← this]
        exact convsNonempty_sortConversations (convsNonempty_groupRecords _ _ _)
  | resync2 fetch =>
    cases fetch with
    | error e =>
      constructor
      · show convsNonempty (s.disk.getD [])
        cases hd : s.disk with
        | none => exact convsNonempty_nil
        | some d => exact h.2 d hd
      · exact h.2
    | ok msgs =>
      constructor
      · show convsNonempty (sortConversations (groupRecords counterpartyV2 entryV2 msgs))
        exact convsNonempty_sortConversations (convsNonempty_groupRecords _ _ _)
      · intro d hd
        have hd2 : some (sortConversations (groupRecords counterpartyV2 entryV2 msgs))
            = some d := hd
        have : sortConversations (groupRecords counterpartyV2 entryV2 msgs) = d :=
          Option.some_injective _ hd2
        rw [← this]
        exact convsNonempty_sortConversations (convsNonempty_groupRecords _ _ _)

theorem reachable_inv {s : SysState} (h : Reachable s) : InvSys s := by
  induction h with
  | init => exact ⟨convsNonempty_nil, fun d hd => by cases hd⟩
  | step hr hs ih => exact step_preserves_inv ih hs

/-- Claim C10: in every state reachable from the empty index via resync,
send-message, webhook-receive and delete-conversation (including their
failure paths), every phone number present in the conversation index maps
to a nonempty message sequence. -/
theorem reachable_conversations_nonempty (s : SysState) (h : Reachable s) :
    ∀ k ms, getKey s.server.conversations k = some ms → ms ≠ [] :=
  fun k ms hk => (reachable_inv h).1 k ms hk

/-- Instantiation of `reachable_conversations_nonempty` one webhook step
from the boot state, discharging its hypotheses. -/
theorem reachable_conversations_nonempty_check :
    [webhookMessageData ⟨"+15551111111", "+15550000000", "hi", "SM1"⟩ 0]
      ≠ ([] : List Message) := by
  have hr : Reachable (afterWebhook1 initialState
      ⟨"+15551111111", "+15550000000", "hi", "SM1"⟩ none 0 true true) :=
    Reachable.step Reachable.init
      (Step.webhook1 initialState ⟨"+15551111111", "+15550000000", "hi", "SM1"⟩ none 0 true true)
  exact reachable_conversations_nonempty _ hr "+15551111111"
    [webhookMessageData ⟨"+15551111111", "+15550000000", "hi", "SM1"⟩ 0] (by decide)

end Sms
